import Mathlib

/-!
Verification of the flash-write orchestration engine of flasher.py
(class ESP8266Flasher and its helpers), shallowly embedded in Lean.

Bytes are modelled as lists of naturals, the asynchronous Qt signals and
the serial-transport primitives as an explicit trace of actions, the
cooperative cancellation flag as a boolean schedule indexed by the number
of polls performed so far, and Python exceptions as explicit outcome
values.  External collaborators imported from esptool (zlib compression,
MD5 hashing, the image-header patcher, flash-size table lookup) are
abstract parameters gathered in an environment structure; theorems
quantify over them.
-/

namespace Flasher

/-- Byte buffers (Python bytes objects); each entry is one byte value. -/
abbrev Bytes := List Nat

/-- The names bound by the import statement at flasher.py:20.  Notably it
binds neither FatalError nor NotImplementedInROMError, although both are
referenced later in the module. -/
def importedNames : List String :=
  ["ESP8266ROM", "read_mac", "erase_flash", "ESPLoader", "print_overwrite",
   "_update_image_flash_params", "pad_to", "flash_size_bytes",
   "detect_flash_size", "DEFAULT_TIMEOUT"]

/-- Python exception values that the embedded code can raise. -/
inductive Exc where
  | serialException
  | nameError (n : String)
  | attributeError (n : String)
  | notImplementedInROM
  | fatalError (msg : String)
deriving DecidableEq

/-- The statement raise FatalError(msg) at flasher.py:108 and flasher.py:177.
Python evaluates the callable before its argument; the module never binds
FatalError (see importedNames), so the statement raises NameError. -/
def raiseFatalError (msg : String) : Exc :=
  if importedNames.contains "FatalError" then Exc.fatalError msg
  else Exc.nameError "FatalError"

/-- The handler except NotImplementedInROMError: pass at flasher.py:180-181.
Given the exception e propagating out of the try body, it returns the
exception that escapes the handler, or none when e is swallowed.  Python
evaluates the class expression only once an exception arrives; the module
never binds NotImplementedInROMError, so that evaluation itself raises
NameError. -/
def handleVerifyExc (e : Exc) : Option Exc :=
  if importedNames.contains "NotImplementedInROMError" then
    if e = Exc.notImplementedInROM then none else some e
  else some (Exc.nameError "NotImplementedInROMError")

/-- Observable actions: Qt signal emissions and Device Session calls, in
program order. -/
inductive Action where
  | progressSig (written total : Nat)
  | resultSig (code : Nat) (msg : String)
  | consoleSig (msg : String)
  | printLine (msg : String)
  | flashSetParameters (size : Nat)
  | flashBegin (size addr : Nat)
  | flashDeflBegin (uncsize complen addr : Nat)
  | flashBlock (data : Bytes) (seq : Nat)
  | flashEncryptBlock (data : Bytes) (seq : Nat)
  | flashDeflBlock (data : Bytes) (seq : Nat)
  | flashMd5 (addr size : Nat)
  | flashFinish
  | flashDeflFinish
  | closeSerial
deriving DecidableEq

/-- The mutable option bag built in class Args (flasher.py:27-41). -/
structure Args where
  compress : Option Bool
  no_compress : Bool
  no_stub : Bool
  encrypt : Bool
  flash_size : String
  flash_mode : String
  flash_freq : String
  addr_filename : List (Nat × Bytes)
deriving DecidableEq

/-- Args.__init__ (flasher.py:28-36). -/
def Args.init : Args :=
  { compress := none, no_compress := false, no_stub := false,
    encrypt := false, flash_size := "detect", flash_mode := "",
    flash_freq := "", addr_filename := [] }

/-- Args.set_body (flasher.py:38-41): wraps the data in a buffer and appends
the (addr, buffer) pair. -/
def Args.set_body (a : Args) (addr : Nat) (data : Bytes) : Args :=
  { a with addr_filename := a.addr_filename ++ [(addr, data)] }

/-- The external collaborators imported from esptool, kept abstract. -/
structure Env where
  flash_size_bytes : String → Nat
  detected_flash_size : String
  update_image_flash_params : Nat → Args → Bytes → Bytes
  zlib_compress : Bytes → Bytes
  md5hex : Bytes → String

/-- The Device Session handle as used by _write_flash. md5sum returns none
when the loader raises NotImplementedInROMError. -/
structure Esp where
  FLASH_WRITE_SIZE : Nat
  IS_STUB : Bool
  md5sum : Nat → Nat → Option String

/-- Modelled from the spec: the helper pad_to is imported from esptool at
flasher.py:20 and its body is not part of this repository's sources.  Per
spec section 4.2 step 1 it pads the payload up to a multiple of the
alignment unit with zero-fill appended at the end. -/
def pad_to (data : Bytes) (alignment : Nat) : Bytes :=
  data ++ List.replicate ((alignment - data.length % alignment) % alignment) 0

/-- The alignment unit chosen at flasher.py:117: 32 when encrypt is set,
else 4. -/
def alignUnit (encrypt : Bool) : Nat := if encrypt then 32 else 4

/-- C7: image preparation pads every payload with zero bytes appended at the
end up to a multiple of the alignment unit (32 when encrypt is set, 4
otherwise), keeps the original payload as a prefix, and is idempotent:
an already aligned payload is returned unchanged. -/
theorem c7_padding (data : Bytes) (encrypt : Bool) :
    (pad_to data (alignUnit encrypt)).length % alignUnit encrypt = 0 ∧
    (pad_to data (alignUnit encrypt)).take data.length = data ∧
    (∀ x ∈ (pad_to data (alignUnit encrypt)).drop data.length, x = 0) ∧
    (data.length % alignUnit encrypt = 0 →
      pad_to data (alignUnit encrypt) = data) := by
  refine ⟨?_, ?_, ?_, ?_⟩
  · have h : alignUnit encrypt = 32 ∨ alignUnit encrypt = 4 := by
      cases encrypt <;> simp [alignUnit]
    rcases h with h | h <;>
      simp only [pad_to, List.length_append, List.length_replicate, h] <;>
      omega
  · rw [pad_to]
    exact List.take_left data _
  · intro x hx
    rw [pad_to] at hx
    have hx' : x ∈ List.replicate
        ((alignUnit encrypt - data.length % alignUnit encrypt) %
          alignUnit encrypt) 0 := by
      rwa [List.drop_left] at hx
    exact List.eq_of_mem_replicate hx'
  · intro h
    simp [pad_to, h, Nat.sub_zero, Nat.mod_self]

/-- Witness for c7_padding at a concrete aligned payload. -/
theorem c7_padding_witness :
    (pad_to [1, 2, 3, 4] (alignUnit false)).length % alignUnit false = 0 ∧
    pad_to [1, 2, 3, 4] (alignUnit false) = [1, 2, 3, 4] := by
  have h := c7_padding [1, 2, 3, 4] false
  exact ⟨h.1, h.2.2.2 (by decide)⟩

/-- Lines 98-99: if args.compress is None and not args.no_compress, set
args.compress to not args.no_stub. -/
def resolveCompress (a : Args) : Args :=
  if a.compress = none ∧ a.no_compress = false then
    { a with compress := some (!a.no_stub) }
  else a

/-- Python truthiness of the tri-state args.compress value as tested at
flasher.py:124, 146, 161 and 189: None is falsy. -/
def truthy : Option Bool → Bool
  | none => false
  | some b => b

/-- The effective compression flag used by the transfer. -/
def effectiveCompress (a : Args) : Bool := truthy (resolveCompress a).compress

/-- Which block-write primitive the loop uses (flasher.py:146-154):
the compressed writer when args.compress is truthy, else the encrypted
writer when args.encrypt is set, else the plain writer. -/
inductive Mode where
  | deflate
  | plain
  | encrypted
deriving DecidableEq

def modeOf (compress encrypt : Bool) : Mode :=
  if compress then Mode.deflate else if encrypt then Mode.encrypted else Mode.plain

/-- One transmission (flasher.py:145-154): slice a block; in the
non-compressed modes pad it to the full block size with 0xFF fill; return
the emitted action together with the bytes actually handed to the session
(whose length feeds the progress event and the written counter). -/
def sendBlock (b : Nat) (m : Mode) (block0 : Bytes) (seq : Nat) : Action × Bytes :=
  match m with
  | Mode.deflate => (Action.flashDeflBlock block0 seq, block0)
  | Mode.plain =>
      let blk := block0 ++ List.replicate (b - block0.length) 255
      (Action.flashBlock blk seq, blk)
  | Mode.encrypted =>
      let blk := block0 ++ List.replicate (b - block0.length) 255
      (Action.flashEncryptBlock blk seq, blk)

/-- Terminal state of the while loop at flasher.py:136-158. -/
inductive LoopOutcome where
  | completed (written : Nat)
  | abortedRet
  | hung
deriving DecidableEq

structure LoopRes where
  trace : List Action
  polls : Nat
  outcome : LoopOutcome
deriving DecidableEq

/-- The while loop at flasher.py:136-158, fuel-indexed.  Each iteration
first polls the cancellation flag (abort p, one poll per iteration); on
abort it emits the result signal (1, terminated), closes the serial port
and returns.  Otherwise it slices image[0:b], transmits it via sendBlock,
emits the progress signal (written + len(block), len(image)) with image
still un-truncated, then continues on image[b:].  Exhausted fuel models
non-termination (possible only when the session block size is 0). -/
def writeLoopGo (b : Nat) (m : Mode) (abort : Nat → Bool) :
    Nat → Bytes → Nat → Nat → Nat → LoopRes
  | _, [], _, written, p => ⟨[], p, LoopOutcome.completed written⟩
  | 0, _ :: _, _, _, p => ⟨[], p, LoopOutcome.hung⟩
  | fuel + 1, x :: xs, seq, written, p =>
    if abort p then
      ⟨[Action.resultSig 1 "已终止", Action.closeSerial], p + 1,
        LoopOutcome.abortedRet⟩
    else
      let sb := sendBlock b m ((x :: xs).take b) seq
      let rest := writeLoopGo b m abort fuel ((x :: xs).drop b) (seq + 1)
          (written + sb.2.length) (p + 1)
      ⟨sb.1 :: Action.progressSig (written + sb.2.length) (x :: xs).length ::
          rest.trace,
        rest.polls, rest.outcome⟩

/-- The block-write loop on a whole image, starting at seq 0, written 0.
With a positive block size, image.length + 1 fuel always suffices. -/
def writeLoop (b : Nat) (m : Mode) (image : Bytes) (abort : Nat → Bool)
    (p0 : Nat) : LoopRes :=
  writeLoopGo b m abort (image.length + 1) image 0 0 p0

/-- Outcome of one statement region of the orchestration: normal
completion, early normal return after abort, an escaping exception, or a
hang. -/
inductive Outcome where
  | ok
  | abortedRet
  | raised (e : Exc)
  | hung
deriving DecidableEq

structure StepRes where
  trace : List Action
  polls : Nat
  out : Outcome
deriving DecidableEq

/-- The verification step, flasher.py:170-181 (reached only when
args.encrypt is false and the loop completed): ask the session for the
md5 of the written range; on mismatch print both checksums and raise
FatalError; when the session raises NotImplementedInROMError the except
clause handles it (see handleVerifyExc). -/
def verifyStep (env : Env) (esp : Esp) (address uncsize : Nat)
    (calcmd5 : String) : List Action × Outcome :=
  match esp.md5sum address uncsize with
  | none =>
    match handleVerifyExc Exc.notImplementedInROM with
    | none => ([Action.flashMd5 address uncsize], Outcome.ok)
    | some e => ([Action.flashMd5 address uncsize], Outcome.raised e)
  | some res =>
    if res = calcmd5 then
      ([Action.flashMd5 address uncsize,
        Action.printLine "Hash of data verified."], Outcome.ok)
    else
      let tr := [Action.flashMd5 address uncsize,
        Action.printLine ("File  md5: " ++ calcmd5),
        Action.printLine ("Flash md5: " ++ res),
        Action.printLine ("MD5 of 0xFF is " ++
          env.md5hex (List.replicate uncsize 255))]
      match handleVerifyExc
          (raiseFatalError "MD5 of file does not match data in flash!") with
      | none => (tr, Outcome.ok)
      | some e => (tr, Outcome.raised e)

/-- The body of the per-image for loop, flasher.py:114-181.  Pads the
payload (line 117); an empty padded image triggers the warning print at
line 119 whose argfile.name attribute access raises AttributeError
(BytesIO objects carry no name attribute); otherwise patches the header,
captures the md5, optionally compresses, opens the transfer and runs the
block loop, then verifies unless encrypting. -/
def processImage (env : Env) (esp : Esp) (args : Args) (abort : Nat → Bool)
    (p0 : Nat) (af : Nat × Bytes) : StepRes :=
  let address := af.1
  let image0 := pad_to af.2 (alignUnit args.encrypt)
  if image0.length = 0 then
    ⟨[], p0, Outcome.raised (Exc.attributeError "name")⟩
  else
    let image1 := env.update_image_flash_params address args image0
    let calcmd5 := env.md5hex image1
    let uncsize := image1.length
    let compressing := truthy args.compress
    let m := modeOf compressing args.encrypt
    let image2 := if compressing then env.zlib_compress image1 else image1
    let beginAct : Action :=
      if compressing then Action.flashDeflBegin uncsize image2.length address
      else Action.flashBegin uncsize address
    let lr := writeLoop esp.FLASH_WRITE_SIZE m image2 abort p0
    match lr.outcome with
    | LoopOutcome.completed _ =>
        if args.encrypt then ⟨beginAct :: lr.trace, lr.polls, Outcome.ok⟩
        else
          let v := verifyStep env esp address uncsize calcmd5
          ⟨beginAct :: (lr.trace ++ v.1), lr.polls, v.2⟩
    | LoopOutcome.abortedRet =>
        ⟨beginAct :: lr.trace, lr.polls, Outcome.abortedRet⟩
    | LoopOutcome.hung => ⟨beginAct :: lr.trace, lr.polls, Outcome.hung⟩

/-- The size-fit loop at flasher.py:105-111: the first image whose address
plus length exceeds flash_end triggers the raise at line 108 (the
FatalError name lookup fails before the message, with its argfile.name
access, is ever evaluated). -/
def sizeCheckGo (flash_end : Nat) : List (Nat × Bytes) → Option Exc
  | [] => none
  | af :: rest =>
      if flash_end < af.1 + af.2.length then
        some (raiseFatalError "File will not fit in flash")
      else sizeCheckGo flash_end rest

/-- The for loop over args.addr_filename at flasher.py:114-181, threading
the poll counter; the first image that aborts, raises or hangs
short-circuits. -/
def imagesLoopGo (env : Env) (esp : Esp) (args : Args) (abort : Nat → Bool) :
    List (Nat × Bytes) → Nat → StepRes
  | [], p => ⟨[], p, Outcome.ok⟩
  | af :: rest, p =>
      let r := processImage env esp args abort p af
      match r.out with
      | Outcome.ok =>
          let r2 := imagesLoopGo env esp args abort rest r.polls
          ⟨r.trace ++ r2.trace, r2.polls, r2.out⟩
      | _ => r

/-- ESP8266Flasher._write_flash, flasher.py:94-192: resolve compression,
run the size-fit check unless flash_size is keep, process each image,
and finally (when the stub loader is in use) send the zero-length
flash_begin plus the matching finish command. -/
def _write_flash (env : Env) (esp : Esp) (args0 : Args) (abort : Nat → Bool) :
    StepRes :=
  let args := resolveCompress args0
  let pre : Option Exc :=
    if args.flash_size ≠ "keep" then
      sizeCheckGo (env.flash_size_bytes args.flash_size) args.addr_filename
    else none
  match pre with
  | some e => ⟨[], 0, Outcome.raised e⟩
  | none =>
    let r := imagesLoopGo env esp args abort args.addr_filename 0
    match r.out with
    | Outcome.ok =>
        let fin : List Action :=
          if esp.IS_STUB then
            [Action.flashBegin 0 0,
              if truthy args.compress then Action.flashDeflFinish
              else Action.flashFinish]
          else []
        ⟨r.trace ++ fin, r.polls, Outcome.ok⟩
    | _ => r

/-- The Args value built by ESP8266Flasher.write_flash, flasher.py:78-82:
a fresh Args, the firmware body registered at address 0, and the mode and
speed fields copied from the firmware dict. -/
def builtArgs (body : Bytes) (mode speed : String) : Args :=
  { Args.init.set_body 0 body with flash_mode := mode, flash_freq := speed }

/-- Modelled from the spec: detect_flash_size is imported from esptool at
flasher.py:20 and its body is not part of this repository's sources.  Per
spec section 4.1 the Detect mode queries the session for a reported size;
modelled as replacing the detect marker with the session-reported size
string, leaving any other setting unchanged. -/
def detect_flash_size (env : Env) (a : Args) : Args :=
  if a.flash_size = "detect" then { a with flash_size := env.detected_flash_size }
  else a

/-- ESP8266Flasher.write_flash, flasher.py:77-92: build the Args, resolve
the flash size, push the parameters to the device unless keep, then run
_write_flash. -/
def write_flash (env : Env) (esp : Esp) (body : Bytes) (mode speed : String)
    (abort : Nat → Bool) : StepRes :=
  let args := detect_flash_size env (builtArgs body mode speed)
  let setup : List Action :=
    if args.flash_size ≠ "keep" then
      [Action.flashSetParameters (env.flash_size_bytes args.flash_size)]
    else []
  let r := _write_flash env esp args abort
  ⟨setup ++ r.trace, r.polls, r.out⟩

/-- ESP8266Flasher.begin_flash, flasher.py:61-75: open the session (a
SerialException is caught and reported); then call write_flash and,
whenever it returns normally (including the early return taken after an
abort), emit the success result signal and close the port.  An exception
escaping write_flash propagates out of begin_flash uncaught. -/
def begin_flash (env : Env) (connect : Option Esp) (body : Bytes)
    (mode speed : String) (abort : Nat → Bool) : StepRes :=
  match connect with
  | none =>
      ⟨[Action.consoleSig "串口读写失败，请检查是否有其他程序占用了指定串口",
        Action.resultSig 1 "串口读写失败"], 0, Outcome.ok⟩
  | some esp =>
      let r := write_flash env esp body mode speed abort
      match r.out with
      | Outcome.ok =>
          ⟨r.trace ++ [Action.resultSig 0 "成功", Action.closeSerial],
            r.polls, Outcome.ok⟩
      | Outcome.abortedRet =>
          ⟨r.trace ++ [Action.resultSig 0 "成功", Action.closeSerial],
            r.polls, Outcome.ok⟩
      | _ => r

/-- Progress-signal payloads of a trace, in order. -/
def progressPairs (tr : List Action) : List (Nat × Nat) :=
  tr.filterMap fun a =>
    match a with
    | Action.progressSig w t => some (w, t)
    | _ => none

/-- First components (the bytes-written argument) of the progress signals. -/
def progressFirsts (tr : List Action) : List Nat :=
  tr.filterMap fun a =>
    match a with
    | Action.progressSig w _ => some w
    | _ => none

/-- Result-signal payloads of a trace, in order. -/
def resultEvents (tr : List Action) : List (Nat × String) :=
  tr.filterMap fun a =>
    match a with
    | Action.resultSig c s => some (c, s)
    | _ => none

/-- The byte buffers handed to any of the three block-write primitives. -/
def blockDatas (tr : List Action) : List Bytes :=
  tr.filterMap fun a =>
    match a with
    | Action.flashBlock d _ => some d
    | Action.flashEncryptBlock d _ => some d
    | Action.flashDeflBlock d _ => some d
    | _ => none

/-- A concrete environment: flash capacity cap, identity header patch,
identity compression, and a constant digest. -/
def idEnv (cap : Nat) : Env :=
  { flash_size_bytes := fun _ => cap, detected_flash_size := "1MB",
    update_image_flash_params := fun _ _ im => im,
    zlib_compress := fun im => im, md5hex := fun _ => "h" }

/-- A stub-loader session with block size b whose md5 answer matches idEnv. -/
def espOk (b : Nat) : Esp := ⟨b, true, fun _ _ => some "h"⟩

/-- A session whose loader raises NotImplementedInROMError on flash_md5sum. -/
def espNoMd5 (b : Nat) : Esp := ⟨b, true, fun _ _ => none⟩

/-- C1: the claim fails on the code.  With an 8-byte firmware, block size 4
and the cancellation flag set at the second poll, the abort branch emits
the result signal (1, terminated) and returns, after which begin_flash
still emits the result signal (0, success): the job's result-event
sequence is Aborted followed by Success, so Success is emitted and the
Aborted result is not the last event.  Exactly one block was transferred
before the stop. -/
theorem c1_abort_followed_by_success :
    resultEvents (begin_flash (idEnv 100) (some (espOk 4))
      [1, 2, 3, 4, 5, 6, 7, 8] "" "" (fun n => decide (n = 1))).trace
      = [(1, "已终止"), (0, "成功")] ∧
    (blockDatas (begin_flash (idEnv 100) (some (espOk 4))
      [1, 2, 3, 4, 5, 6, 7, 8] "" "" (fun n => decide (n = 1))).trace).length
      = 1 := by
  constructor <;> rfl

/-- C2: the claim fails on the code.  A 12-byte firmware against an 8-byte
flash capacity makes the size check raise; FatalError is not bound by
the imports at flasher.py:20, so a NameError escapes begin_flash uncaught
and the job terminates with no JobResult event at all (and no transport
block write). -/
theorem c2_oversize_uncaught_no_result :
    (begin_flash (idEnv 8) (some (espOk 4))
      [1, 2, 3, 4, 5, 6, 7, 8, 9, 10, 11, 12] "" "" (fun _ => false)).out
      = Outcome.raised (Exc.nameError "FatalError") ∧
    resultEvents (begin_flash (idEnv 8) (some (espOk 4))
      [1, 2, 3, 4, 5, 6, 7, 8, 9, 10, 11, 12] "" "" (fun _ => false)).trace
      = [] ∧
    blockDatas (begin_flash (idEnv 8) (some (espOk 4))
      [1, 2, 3, 4, 5, 6, 7, 8, 9, 10, 11, 12] "" "" (fun _ => false)).trace
      = [] := by
  refine ⟨rfl, rfl, rfl⟩

/-- The Args configuration used by the C3 run: one 8-byte image at address
0, compression forced off, size check skipped. -/
def argsC3 : Args :=
  { Args.init with
    addr_filename := [(0, [1, 2, 3, 4, 5, 6, 7, 8])],
    no_compress := true,
    flash_size := "keep" }

/-- C3: the claim fails on the code.  A successful uncompressed two-block
write (8 bytes, block size 4) emits the progress pairs (4, 8) then
(8, 4): the second argument of flash_progress_sig is the length of the
still-remaining image, so the total component decreases instead of
staying equal to the transfer length, and the final pair is (8, 4), not
(8, 8). -/
theorem c3_progress_total_decreases :
    progressPairs (_write_flash (idEnv 100) (espOk 4) argsC3
      (fun _ => false)).trace = [(4, 8), (8, 4)] ∧
    (_write_flash (idEnv 100) (espOk 4) argsC3 (fun _ => false)).out
      = Outcome.ok ∧
    (∃ pr ∈ progressPairs (_write_flash (idEnv 100) (espOk 4) argsC3
      (fun _ => false)).trace, pr.2 ≠ 8) := by
  refine ⟨rfl, rfl, ⟨(8, 4), by decide⟩⟩

/-- The Args configuration used by the C4 counterexample: a 2-byte payload
(padded to 4 bytes) written uncompressed with block size 8. -/
def argsC4 : Args :=
  { Args.init with
    addr_filename := [(0, [1, 2])],
    no_compress := true,
    flash_size := "keep" }

/-- C4 counterexample: the written counter exceeds total_bytes.  The
4-byte padded image is sent as a single block padded to the full 8-byte
block size, so the progress event reports bytes_written 8 for an image of
length 4. -/
theorem c4_written_exceeds_total :
    progressPairs (_write_flash (idEnv 100) (espOk 8) argsC4
      (fun _ => false)).trace = [(8, 4)] ∧
    ¬ (8 : Nat) ≤ 4 := by
  exact ⟨rfl, by decide⟩

/-- The Args configuration used by the C6 failing input: one 4-byte image,
not encrypted, uncompressed. -/
def argsC6 : Args :=
  { Args.init with
    addr_filename := [(0, [1, 2, 3, 4])],
    no_compress := true,
    flash_size := "keep" }

/-- C6: the claim fails on the code.  When the loader does not support
checksum reporting (flash_md5sum raises NotImplementedInROMError), the
except clause at flasher.py:180 evaluates the name
NotImplementedInROMError, which the import at line 20 never bound, so the
handler raises NameError and the job dies instead of skipping
verification silently. -/
theorem c6_unsupported_md5_raises :
    (_write_flash (idEnv 100) (espNoMd5 4) argsC6 (fun _ => false)).out
      = Outcome.raised (Exc.nameError "NotImplementedInROMError") := by
  rfl

/-- C8: the effective compression flag honours an explicitly forced value
and otherwise equals the presence of the stub loader (compression is
disabled exactly when no_stub is set). -/
theorem c8_compress_resolution (a : Args) :
    (∀ b : Bool, a.compress = some b → effectiveCompress a = b) ∧
    (a.compress = none → a.no_compress = true → effectiveCompress a = false) ∧
    (a.compress = none → a.no_compress = false →
      (effectiveCompress a = true ↔ a.no_stub = false)) := by
  refine ⟨?_, ?_, ?_⟩
  · intro b hb
    simp [effectiveCompress, resolveCompress, hb, truthy]
  · intro h1 h2
    simp [effectiveCompress, resolveCompress, h1, h2, truthy]
  · intro h1 h2
    cases hs : a.no_stub <;>
      simp [effectiveCompress, resolveCompress, h1, h2, hs, truthy]

/-- Witness for c8_compress_resolution: the default Args (nothing forced,
stub loader in use) resolves to compression on. -/
theorem c8_compress_resolution_witness : effectiveCompress Args.init = true :=
  ((c8_compress_resolution Args.init).2.2 rfl rfl).mpr rfl

/-- C10: the public flashing entry point always builds the job as exactly
one image placed at flash address 0 whose payload is the firmware body. -/
theorem c10_single_image_at_zero (body : Bytes) (mode speed : String) :
    (builtArgs body mode speed).addr_filename = [(0, body)] := by
  simp [builtArgs, Args.init, Args.set_body]

/-- n rounded up to the next multiple of b. -/
def roundUpTo (b n : Nat) : Nat := n + (b - n % b) % b

theorem le_roundUpTo (b n : Nat) : n ≤ roundUpTo b n := Nat.le_add_right _ _

theorem b_le_roundUpTo {b n : Nat} (hb : 0 < b) (hn : 0 < n) :
    b ≤ roundUpTo b n := by
  unfold roundUpTo
  rcases Nat.eq_zero_or_pos (n % b) with h0 | hpos
  · rw [h0, Nat.sub_zero, Nat.mod_self]
    have := Nat.le_of_dvd hn (Nat.dvd_of_mod_eq_zero h0)
    omega
  · have h1 : n % b < b := Nat.mod_lt _ hb
    have h2 : n % b ≤ n := Nat.mod_le _ _
    have h3 : (b - n % b) % b = b - n % b := Nat.mod_eq_of_lt (by omega)
    rw [h3]
    omega

theorem roundUpTo_add_right (b k : Nat) :
    roundUpTo b (k + b) = roundUpTo b k + b := by
  unfold roundUpTo
  rw [Nat.add_mod_right]
  omega

theorem writeLoopGo_nil (b : Nat) (m : Mode) (abort : Nat → Bool)
    (fuel seq written p : Nat) :
    writeLoopGo b m abort fuel [] seq written p
      = ⟨[], p, LoopOutcome.completed written⟩ := by
  cases fuel <;> rfl

theorem writeLoopGo_zero_cons (b : Nat) (m : Mode) (abort : Nat → Bool)
    (x : Nat) (xs : Bytes) (seq written p : Nat) :
    writeLoopGo b m abort 0 (x :: xs) seq written p
      = ⟨[], p, LoopOutcome.hung⟩ := rfl

theorem writeLoopGo_cons_abort (b : Nat) (m : Mode) (abort : Nat → Bool)
    (fuel : Nat) (x : Nat) (xs : Bytes) (seq written p : Nat)
    (h : abort p = true) :
    writeLoopGo b m abort (fuel + 1) (x :: xs) seq written p
      = ⟨[Action.resultSig 1 "已终止", Action.closeSerial], p + 1,
          LoopOutcome.abortedRet⟩ := by
  simp [writeLoopGo, h]

theorem writeLoopGo_cons_go (b : Nat) (m : Mode) (abort : Nat → Bool)
    (fuel : Nat) (x : Nat) (xs : Bytes) (seq written p : Nat)
    (h : abort p = false) :
    writeLoopGo b m abort (fuel + 1) (x :: xs) seq written p
      = ⟨(sendBlock b m ((x :: xs).take b) seq).1 ::
          Action.progressSig
            (written + (sendBlock b m ((x :: xs).take b) seq).2.length)
            (x :: xs).length ::
          (writeLoopGo b m abort fuel ((x :: xs).drop b) (seq + 1)
            (written + (sendBlock b m ((x :: xs).take b) seq).2.length)
            (p + 1)).trace,
          (writeLoopGo b m abort fuel ((x :: xs).drop b) (seq + 1)
            (written + (sendBlock b m ((x :: xs).take b) seq).2.length)
            (p + 1)).polls,
          (writeLoopGo b m abort fuel ((x :: xs).drop b) (seq + 1)
            (written + (sendBlock b m ((x :: xs).take b) seq).2.length)
            (p + 1)).outcome⟩ := by
  simp [writeLoopGo, h]

theorem progressFirsts_nil : progressFirsts [] = [] := rfl

theorem progressFirsts_sendBlock_cons (b : Nat) (m : Mode) (bl : Bytes)
    (seq : Nat) (tr : List Action) :
    progressFirsts ((sendBlock b m bl seq).1 :: tr) = progressFirsts tr := by
  cases m <;> rfl

theorem progressFirsts_progress_cons (w t : Nat) (tr : List Action) :
    progressFirsts (Action.progressSig w t :: tr) = w :: progressFirsts tr :=
  rfl

theorem progressFirsts_abort_pair :
    progressFirsts [Action.resultSig 1 "已终止", Action.closeSerial] = [] :=
  rfl

theorem sendBlock_length (b : Nat) (m : Mode) (bl : Bytes) (seq : Nat) :
    (sendBlock b m bl seq).2.length = bl.length ∨
    (sendBlock b m bl seq).2.length = bl.length + (b - bl.length) := by
  cases m
  · exact Or.inl rfl
  · right
    simp [sendBlock]
  · right
    simp [sendBlock]

/-- The running bytes-written values reported by the progress events are
non-decreasing. -/
theorem writeLoopGo_chain (b : Nat) (m : Mode) (abort : Nat → Bool) :
    ∀ (fuel : Nat) (image : Bytes) (seq written p : Nat),
      List.Chain (· ≤ ·) written
        (progressFirsts
          (writeLoopGo b m abort fuel image seq written p).trace) := by
  intro fuel
  induction fuel with
  | zero =>
    intro image seq written p
    cases image with
    | nil => rw [writeLoopGo_nil]; exact List.Chain.nil
    | cons x xs => rw [writeLoopGo_zero_cons]; exact List.Chain.nil
  | succ fuel ih =>
    intro image seq written p
    cases image with
    | nil => rw [writeLoopGo_nil]; exact List.Chain.nil
    | cons x xs =>
      cases h : abort p with
      | true =>
        rw [writeLoopGo_cons_abort b m abort fuel x xs seq written p h]
        exact List.Chain.nil
      | false =>
        rw [writeLoopGo_cons_go b m abort fuel x xs seq written p h]
        rw [progressFirsts_sendBlock_cons, progressFirsts_progress_cons]
        exact List.Chain.cons (Nat.le_add_right _ _) (ih _ _ _ _)

/-- Every reported bytes-written value stays below the image length rounded
up to the next multiple of the block size (offset by the starting
counter). -/
theorem writeLoopGo_le (b : Nat) (m : Mode) (abort : Nat → Bool)
    (hb : 0 < b) :
    ∀ (fuel : Nat) (image : Bytes) (seq written p : Nat),
      ∀ w ∈ progressFirsts
          (writeLoopGo b m abort fuel image seq written p).trace,
        w ≤ written + roundUpTo b image.length := by
  intro fuel
  induction fuel with
  | zero =>
    intro image seq written p w hw
    cases image with
    | nil =>
      rw [writeLoopGo_nil] at hw
      simp [progressFirsts_nil] at hw
    | cons x xs =>
      rw [writeLoopGo_zero_cons] at hw
      simp [progressFirsts_nil] at hw
  | succ fuel ih =>
    intro image seq written p w hw
    cases image with
    | nil =>
      rw [writeLoopGo_nil] at hw
      simp [progressFirsts_nil] at hw
    | cons x xs =>
      cases h : abort p with
      | true =>
        rw [writeLoopGo_cons_abort b m abort fuel x xs seq written p h] at hw
        rw [progressFirsts_abort_pair] at hw
        simp at hw
      | false =>
        rw [writeLoopGo_cons_go b m abort fuel x xs seq written p h] at hw
        rw [progressFirsts_sendBlock_cons, progressFirsts_progress_cons] at hw
        have hL := sendBlock_length b m ((x :: xs).take b) seq
        rw [List.length_take b (x :: xs)] at hL
        have hlen : 0 < (x :: xs).length := by simp
        have r1 : (x :: xs).length ≤ roundUpTo b (x :: xs).length :=
          le_roundUpTo b _
        have r2 : b ≤ roundUpTo b (x :: xs).length := b_le_roundUpTo hb hlen
        rcases List.mem_cons.mp hw with rfl | hw'
        · rcases hL with hL | hL <;> rw [hL] <;> omega
        · rcases Nat.lt_or_ge (x :: xs).length b with hlt | hge
          · rw [List.drop_eq_nil_of_le (Nat.le_of_lt hlt),
              writeLoopGo_nil] at hw'
            simp [progressFirsts_nil] at hw'
          · have hdr : ((x :: xs).drop b).length = (x :: xs).length - b :=
              List.length_drop b _
            have hup := roundUpTo_add_right b ((x :: xs).length - b)
            rw [Nat.sub_add_cancel hge] at hup
            have htail := ih ((x :: xs).drop b) (seq + 1)
              (written + (sendBlock b m ((x :: xs).take b) seq).2.length)
              (p + 1) w hw'
            rw [hdr] at htail
            rcases hL with hL | hL <;> rw [hL] at htail <;> omega

/-- C4 as amended: throughout the block-write loop the bytes_written
counter (reported by each progress event) is monotonically non-decreasing
and never exceeds total_bytes rounded up to the next multiple of the
session block size; it can exceed total_bytes itself because in the
non-compressed modes every transmitted block, the final one included, is
padded to the full block size. -/
theorem c4_monotone_bounded (b : Nat) (m : Mode) (image : Bytes)
    (abort : Nat → Bool) (p0 : Nat) (hb : 0 < b) :
    List.Chain (· ≤ ·) 0
      (progressFirsts (writeLoop b m image abort p0).trace) ∧
    ∀ w ∈ progressFirsts (writeLoop b m image abort p0).trace,
      w ≤ roundUpTo b image.length := by
  constructor
  · exact writeLoopGo_chain b m abort (image.length + 1) image 0 0 p0
  · intro w hw
    have := writeLoopGo_le b m abort hb (image.length + 1) image 0 0 p0 w hw
    simpa using this

/-- Witness for c4_monotone_bounded: a 6-byte image written plain with
block size 4. -/
theorem c4_monotone_bounded_witness :
    List.Chain (· ≤ ·) 0
      (progressFirsts
        (writeLoop 4 Mode.plain [1, 2, 3, 4, 5, 6] (fun _ => false) 0).trace) ∧
    ∀ w ∈ progressFirsts
        (writeLoop 4 Mode.plain [1, 2, 3, 4, 5, 6] (fun _ => false) 0).trace,
      w ≤ roundUpTo 4 6 :=
  c4_monotone_bounded 4 Mode.plain [1, 2, 3, 4, 5, 6] (fun _ => false) 0
    (by decide)

theorem resolveCompress_flash_size (a : Args) :
    (resolveCompress a).flash_size = a.flash_size := by
  unfold resolveCompress
  split <;> rfl

theorem resolveCompress_addr_filename (a : Args) :
    (resolveCompress a).addr_filename = a.addr_filename := by
  unfold resolveCompress
  split <;> rfl

theorem raiseFatalError_eq (msg : String) :
    raiseFatalError msg = Exc.nameError "FatalError" := rfl

theorem handleVerifyExc_eq (e : Exc) :
    handleVerifyExc e = some (Exc.nameError "NotImplementedInROMError") := rfl

/-- Any oversize image in the list makes the size-fit loop raise. -/
theorem sizeCheckGo_oversize (fe : Nat) :
    ∀ l : List (Nat × Bytes), (∃ af ∈ l, fe < af.1 + af.2.length) →
      sizeCheckGo fe l = some (Exc.nameError "FatalError") := by
  intro l
  induction l with
  | nil =>
    rintro ⟨af, haf, _⟩
    simp at haf
  | cons a t ih =>
    rintro ⟨af, haf, hlt⟩
    by_cases h : fe < a.1 + a.2.length
    · simp only [sizeCheckGo, if_pos h]
      rw [raiseFatalError_eq]
    · simp only [sizeCheckGo, if_neg h]
      rcases List.mem_cons.mp haf with rfl | hmem
      · exact absurd hlt h
      · exact ih ⟨af, hmem, hlt⟩

/-- The verification step either succeeds or raises the NameError produced
by looking up the unbound NotImplementedInROMError in the except clause. -/
theorem verifyStep_out (env : Env) (esp : Esp) (addr u : Nat) (c : String) :
    (verifyStep env esp addr u c).2 = Outcome.ok ∨
    (verifyStep env esp addr u c).2
      = Outcome.raised (Exc.nameError "NotImplementedInROMError") := by
  unfold verifyStep
  cases esp.md5sum addr u with
  | none => right; rfl
  | some res =>
    by_cases h : res = c
    · left
      simp [h]
    · right
      simp only [if_neg h]
      rw [handleVerifyExc_eq]

/-- processImage never raises the NameError coming from the FatalError
lookup: its only raises are the AttributeError on the empty-image warning
and the NameError from the verification handler. -/
theorem processImage_not_fatal (env : Env) (esp : Esp) (args : Args)
    (abort : Nat → Bool) (p : Nat) (af : Nat × Bytes) :
    (processImage env esp args abort p af).out
      ≠ Outcome.raised (Exc.nameError "FatalError") := by
  unfold processImage
  dsimp only
  split
  · simp
  · split
    · split
      · simp
      · rcases verifyStep_out env esp af.1
          (env.update_image_flash_params af.1 args
            (pad_to af.2 (alignUnit args.encrypt))).length
          (env.md5hex (env.update_image_flash_params af.1 args
            (pad_to af.2 (alignUnit args.encrypt)))) with h | h <;>
          simp [h]
    · simp
    · simp

/-- The per-image loop never raises the FatalError-lookup NameError. -/
theorem imagesLoopGo_not_fatal (env : Env) (esp : Esp) (args : Args)
    (abort : Nat → Bool) :
    ∀ (l : List (Nat × Bytes)) (p : Nat),
      (imagesLoopGo env esp args abort l p).out
        ≠ Outcome.raised (Exc.nameError "FatalError") := by
  intro l
  induction l with
  | nil =>
    intro p
    simp [imagesLoopGo]
  | cons a t ih =>
    intro p
    simp only [imagesLoopGo]
    split
    · exact ih _
    · exact processImage_not_fatal env esp args abort p a

/-- C5: unless flash_size is keep, any image whose address plus payload
length exceeds the resolved capacity makes _write_flash fail by the raise
at the size-fit check before a single transport action (block write or
otherwise) is issued; when flash_size is keep the check is skipped
entirely, so the size-check raise can never occur. -/
theorem c5_size_check :
    (∀ (env : Env) (esp : Esp) (args : Args) (abort : Nat → Bool),
      args.flash_size ≠ "keep" →
      (∃ af ∈ args.addr_filename,
        env.flash_size_bytes args.flash_size < af.1 + af.2.length) →
      (_write_flash env esp args abort).out
        = Outcome.raised (Exc.nameError "FatalError") ∧
      (_write_flash env esp args abort).trace = []) ∧
    (∀ (env : Env) (esp : Esp) (args : Args) (abort : Nat → Bool),
      args.flash_size = "keep" →
      (_write_flash env esp args abort).out
        ≠ Outcome.raised (Exc.nameError "FatalError")) := by
  constructor
  · intro env esp args abort hks hex
    have hchk : sizeCheckGo
        (env.flash_size_bytes (resolveCompress args).flash_size)
        (resolveCompress args).addr_filename
        = some (Exc.nameError "FatalError") := by
      rw [resolveCompress_flash_size, resolveCompress_addr_filename]
      exact sizeCheckGo_oversize _ _ hex
    have hne : (resolveCompress args).flash_size ≠ "keep" := by
      rw [resolveCompress_flash_size]; exact hks
    unfold _write_flash
    dsimp only
    rw [if_pos hne, hchk]
    exact ⟨rfl, rfl⟩
  · intro env esp args abort hks
    have hne : ¬((resolveCompress args).flash_size ≠ "keep") := by
      rw [resolveCompress_flash_size]
      exact fun hc => hc hks
    unfold _write_flash
    dsimp only
    rw [if_neg hne]
    dsimp only
    split
    · simp
    · exact imagesLoopGo_not_fatal env esp (resolveCompress args) abort _ _

/-- The Args configuration for the c5_size_check witness: a 12-byte image
against an 8-byte capacity, explicit (non-keep) flash size. -/
def argsC5 : Args :=
  { Args.init with
    addr_filename := [(0, [1, 2, 3, 4, 5, 6, 7, 8, 9, 10, 11, 12])],
    flash_size := "4MB" }

/-- Witness for c5_size_check. -/
theorem c5_size_check_witness :
    (_write_flash (idEnv 8) (espOk 4) argsC5 (fun _ => false)).out
      = Outcome.raised (Exc.nameError "FatalError") ∧
    (_write_flash (idEnv 8) (espOk 4) argsC5 (fun _ => false)).trace = [] :=
  c5_size_check.1 (idEnv 8) (espOk 4) argsC5 (fun _ => false) (by decide)
    ⟨(0, [1, 2, 3, 4, 5, 6, 7, 8, 9, 10, 11, 12]), by decide, by decide⟩

theorem blockDatas_nil : blockDatas [] = [] := rfl

theorem blockDatas_progress_cons (w t : Nat) (tr : List Action) :
    blockDatas (Action.progressSig w t :: tr) = blockDatas tr := rfl

theorem blockDatas_sendBlock_cons (b : Nat) (m : Mode) (bl : Bytes)
    (seq : Nat) (tr : List Action) :
    blockDatas ((sendBlock b m bl seq).1 :: tr)
      = (sendBlock b m bl seq).2 :: blockDatas tr := by
  cases m <;> rfl

theorem sendBlock_data_deflate (b : Nat) (bl : Bytes) (seq : Nat) :
    (sendBlock b Mode.deflate bl seq).2 = bl := rfl

theorem sendBlock_data_pad (b : Nat) (m : Mode) (bl : Bytes) (seq : Nat)
    (hm : m = Mode.plain ∨ m = Mode.encrypted) :
    (sendBlock b m bl seq).2 = bl ++ List.replicate (b - bl.length) 255 := by
  rcases hm with rfl | rfl <;> rfl

/-- In the non-compressed modes with no cancellation, every transmitted
block is exactly the block size long and the transmitted bytes are the
image followed by 0xFF fill up to a whole number of blocks. -/
theorem blockDatas_go_pad (b : Nat) (hb : 0 < b) (m : Mode)
    (hm : m = Mode.plain ∨ m = Mode.encrypted) :
    ∀ (fuel : Nat) (image : Bytes) (seq written p : Nat),
      image.length < fuel →
      (∀ d ∈ blockDatas
          (writeLoopGo b m (fun _ => false) fuel image seq written p).trace,
        d.length = b) ∧
      (blockDatas
          (writeLoopGo b m (fun _ => false) fuel image seq written p).trace).flatten
        = image ++ List.replicate ((b - image.length % b) % b) 255 := by
  intro fuel
  induction fuel with
  | zero =>
    intro image seq written p hf
    exact absurd hf (Nat.not_lt_zero _)
  | succ fuel ih =>
    intro image seq written p hf
    cases image with
    | nil =>
      rw [writeLoopGo_nil]
      constructor
      · intro d hd
        simp [blockDatas_nil] at hd
      · simp [blockDatas_nil, Nat.mod_self]
    | cons x xs =>
      rw [writeLoopGo_cons_go b m (fun _ => false) fuel x xs seq written p rfl]
      dsimp only
      rw [blockDatas_sendBlock_cons, blockDatas_progress_cons]
      have hdata := sendBlock_data_pad b m ((x :: xs).take b) seq hm
      rcases Nat.lt_or_ge (x :: xs).length b with hlt | hge
      · have htake : (x :: xs).take b = x :: xs :=
          List.take_of_length_le (Nat.le_of_lt hlt)
        have hdrop : (x :: xs).drop b = [] :=
          List.drop_eq_nil_of_le (Nat.le_of_lt hlt)
        rw [hdrop, writeLoopGo_nil]
        dsimp only
        rw [blockDatas_nil]
        have hlen1 : 0 < (x :: xs).length := by simp
        have hsb : (sendBlock b m ((x :: xs).take b) seq).2
            = (x :: xs) ++ List.replicate (b - (x :: xs).length) 255 := by
          rw [hdata, htake]
        constructor
        · intro d hd
          rcases List.mem_cons.mp hd with rfl | hd'
          · rw [hsb]
            simp only [List.length_append, List.length_replicate]
            omega
          · simp at hd'
        · have h1 : (x :: xs).length % b = (x :: xs).length :=
            Nat.mod_eq_of_lt hlt
          have h2 : (b - (x :: xs).length) % b = b - (x :: xs).length :=
            Nat.mod_eq_of_lt (by omega)
          rw [h1, h2]
          simp [hsb]
      · have htake : ((x :: xs).take b).length = b := by
          rw [List.length_take]
          omega
        have hsb : (sendBlock b m ((x :: xs).take b) seq).2
            = (x :: xs).take b := by
          rw [hdata, htake, Nat.sub_self]
          simp
        have hfl : ((x :: xs).drop b).length < fuel := by
          rw [List.length_drop]
          simp only [List.length_cons] at hf ⊢
          omega
        have hih := ih ((x :: xs).drop b) (seq + 1)
          (written + (sendBlock b m ((x :: xs).take b) seq).2.length)
          (p + 1) hfl
        have hmod : ((x :: xs).drop b).length % b = (x :: xs).length % b := by
          rw [List.length_drop]
          conv_rhs => rw [← Nat.sub_add_cancel hge]
          rw [Nat.add_mod_right]
        constructor
        · intro d hd
          rcases List.mem_cons.mp hd with rfl | hd'
          · rw [hsb, htake]
          · exact hih.1 d hd'
        · rw [List.flatten_cons, hih.2, hmod, hsb, ← List.append_assoc,
            List.take_append_drop]

/-- In the compressed mode with no cancellation, the transmitted blocks
are exact slices: no padding is added, their concatenation is the image
itself, and no block exceeds the block size. -/
theorem blockDatas_go_deflate (b : Nat) (hb : 0 < b) :
    ∀ (fuel : Nat) (image : Bytes) (seq written p : Nat),
      image.length < fuel →
      (blockDatas (writeLoopGo b Mode.deflate (fun _ => false) fuel image seq
          written p).trace).flatten = image ∧
      (∀ d ∈ blockDatas (writeLoopGo b Mode.deflate (fun _ => false) fuel
          image seq written p).trace, d.length ≤ b) := by
  intro fuel
  induction fuel with
  | zero =>
    intro image seq written p hf
    exact absurd hf (Nat.not_lt_zero _)
  | succ fuel ih =>
    intro image seq written p hf
    cases image with
    | nil =>
      rw [writeLoopGo_nil]
      constructor
      · simp [blockDatas_nil]
      · intro d hd
        simp [blockDatas_nil] at hd
    | cons x xs =>
      rw [writeLoopGo_cons_go b Mode.deflate (fun _ => false) fuel x xs seq
        written p rfl]
      dsimp only
      rw [blockDatas_sendBlock_cons, blockDatas_progress_cons,
        sendBlock_data_deflate]
      have hfl : ((x :: xs).drop b).length < fuel := by
        rw [List.length_drop]
        simp only [List.length_cons] at hf ⊢
        omega
      have hih := ih ((x :: xs).drop b) (seq + 1)
        (written + ((x :: xs).take b).length) (p + 1) hfl
      constructor
      · rw [List.flatten_cons, hih.1, List.take_append_drop]
      · intro d hd
        rcases List.mem_cons.mp hd with rfl | hd'
        · rw [List.length_take]
          omega
        · exact hih.2 d hd'

/-- C9: with a positive session block size and no cancellation, every
plain or encrypted block write transmits exactly block-size bytes, the
transmitted bytes being the image followed by 0xFF fill for the final
short chunk; compressed block writes are not padded: their concatenation
is exactly the (compressed) image. -/
theorem c9_block_padding (b : Nat) (image : Bytes) (p0 : Nat) (hb : 0 < b) :
    (∀ m, (m = Mode.plain ∨ m = Mode.encrypted) →
      (∀ d ∈ blockDatas (writeLoop b m image (fun _ => false) p0).trace,
        d.length = b) ∧
      (blockDatas (writeLoop b m image (fun _ => false) p0).trace).flatten
        = image ++ List.replicate ((b - image.length % b) % b) 255) ∧
    ((blockDatas
        (writeLoop b Mode.deflate image (fun _ => false) p0).trace).flatten
      = image ∧
     ∀ d ∈ blockDatas
         (writeLoop b Mode.deflate image (fun _ => false) p0).trace,
       d.length ≤ b) := by
  constructor
  · intro m hm
    exact blockDatas_go_pad b hb m hm (image.length + 1) image 0 0 p0
      (Nat.lt_succ_self _)
  · exact blockDatas_go_deflate b hb (image.length + 1) image 0 0 p0
      (Nat.lt_succ_self _)

/-- Witness for c9_block_padding: a 3-byte image with block size 2. -/
theorem c9_block_padding_witness :
    ((blockDatas
        (writeLoop 2 Mode.plain [7, 7, 7] (fun _ => false) 0).trace).flatten
      = [7, 7, 7] ++ List.replicate ((2 - [7, 7, 7].length % 2) % 2) 255) ∧
    (blockDatas
        (writeLoop 2 Mode.deflate [7, 7, 7] (fun _ => false) 0).trace).flatten
      = [7, 7, 7] :=
  ⟨((c9_block_padding 2 [7, 7, 7] 0 (by decide)).1 Mode.plain
      (Or.inl rfl)).2,
   (c9_block_padding 2 [7, 7, 7] 0 (by decide)).2.1⟩

end Flasher
